import Mathlib

/-!
Verification of the simple-inference-server repository: a shallow embedding of
the model-manager lifecycle (app/llm.py), the authentication functions
(app/auth.py), configuration validation (app/config.py), request validation
(app/models.py), and the chat/health routes (app/routes/chat.py,
app/routes/health.py), together with theorems settling the specified
properties.
-/

namespace InferenceServer

/-- HTTP error outcomes used by the handlers (FastAPI HTTPException status
codes): 401 unauthorized, 403 forbidden, 422 validation, 500 internal. -/
inductive HTTPError where
  | unauthorized (detail : String)
  | forbidden (detail : String)
  | unprocessable (detail : String)
  | internalError (detail : String)
deriving Repr, DecidableEq

/-- The settings fields used by authentication, configuration validation and
the chat route (app/config.py `Settings`). -/
structure Settings where
  api_keys : List String
  admin_api_key : String
  model_name : String := "llama-3-8b"
deriving Repr, DecidableEq

/-- Python `str.split(",")` on the character list: split at every comma. -/
def splitCommaAux (cur : List Char) : List Char → List (List Char)
  | [] => [cur.reverse]
  | c :: rest =>
    if c = ',' then cur.reverse :: splitCommaAux [] rest
    else splitCommaAux (c :: cur) rest

/-- Python `str.split(",")`. -/
def pySplitComma (s : String) : List String :=
  (splitCommaAux [] s.data).map fun cs => String.mk cs

/-- Python `str.strip()`: drop leading and trailing whitespace. -/
def pyStrip (s : String) : String :=
  String.mk (((s.data.dropWhile Char.isWhitespace).reverse.dropWhile
    Char.isWhitespace).reverse)

/-- app/config.py `Settings.parse_api_keys`: split the environment string on
commas, strip whitespace from each entry and drop entries that are empty
after stripping (`if key.strip()`). -/
def parse_api_keys (v : String) : List String :=
  ((pySplitComma v).map pyStrip).filter (fun k => k ≠ "")

/-- app/config.py `Settings.validate_required_fields`: error when the API key
list is empty or the admin key is the empty string. -/
def validate_required_fields (s : Settings) : Except String Unit :=
  if s.api_keys = [] then
    .error "At least one API key must be configured. Set API_KEYS environment variable."
  else if s.admin_api_key = "" then
    .error "Admin API key must be configured. Set ADMIN_API_KEY environment variable."
  else .ok ()

/-- app/config.py module level: `settings.validate_required_fields()` is run
inside a try/except that converts the ValueError into a warning, so import
(process start) always succeeds, possibly carrying a warning message. -/
def config_startup (s : Settings) : Except String (Settings × Option String) :=
  match validate_required_fields s with
  | .ok () => .ok (s, none)
  | .error e => .ok (s, some ("Configuration validation failed: " ++ e))

/-- app/auth.py `verify_api_key`: 401 on empty token, 401 when the token is
not in the configured key list, otherwise the token is returned. -/
def verify_api_key (s : Settings) (token : String) : Except HTTPError String :=
  if token = "" then .error (.unauthorized "Missing API key")
  else if token ∉ s.api_keys then .error (.unauthorized "Invalid API key")
  else .ok token

/-- app/auth.py `verify_admin_key`: 401 on empty token, 403 when the token
differs from the admin key, otherwise the token is returned. -/
def verify_admin_key (s : Settings) (token : String) : Except HTTPError String :=
  if token = "" then .error (.unauthorized "Missing API key")
  else if token ≠ s.admin_api_key then .error (.forbidden "Admin access required")
  else .ok token

/-- Python `str.partition(" ")` restricted to the two parts used by FastAPI:
the text before the first space and the text after it (both empty when the
string has no space). -/
def partitionSpaceAux (acc : List Char) : List Char → List Char × List Char
  | [] => (acc.reverse, [])
  | c :: rest =>
    if c = ' ' then (acc.reverse, rest) else partitionSpaceAux (c :: acc) rest

/-- fastapi.security.utils `get_authorization_scheme_param`: split the header
value at the first space into the scheme and the credentials
(`scheme, _, param = authorization_header_value.partition(" ")`). -/
def get_authorization_scheme_param (authorization : String) : String × String :=
  (String.mk (partitionSpaceAux [] authorization.data).1,
   String.mk (partitionSpaceAux [] authorization.data).2)

/-- Python `str.lower()`. -/
def pyLower (s : String) : String := String.mk (s.data.map Char.toLower)

/-- The `security` scheme of app/auth.py: `fastapi.security.HTTPBearer` with
the default `auto_error=True`. A missing Authorization header, an empty value,
an empty scheme or empty credentials raise 403 "Not authenticated" before the
dependency function runs; a scheme other than bearer (case-insensitively)
raises 403 "Invalid authentication credentials"; otherwise the bearer
credentials are handed to the dependency. The repository tests pin this
behaviour down (test_auth.py asserts 403 for requests without a header). -/
def httpBearer (authHeader : Option String) : Except HTTPError String :=
  match authHeader with
  | none => .error (.forbidden "Not authenticated")
  | some authorization =>
    if authorization = "" ∨ (get_authorization_scheme_param authorization).1 = "" ∨
        (get_authorization_scheme_param authorization).2 = "" then
      .error (.forbidden "Not authenticated")
    else if pyLower (get_authorization_scheme_param authorization).1 ≠ "bearer" then
      .error (.forbidden "Invalid authentication credentials")
    else .ok (get_authorization_scheme_param authorization).2

/-- Endpoint-level user authentication: FastAPI first runs the HTTPBearer
scheme on the request's Authorization header, then `verify_api_key` on the
extracted credentials. -/
def user_auth (s : Settings) (authHeader : Option String) :
    Except HTTPError String :=
  match httpBearer authHeader with
  | .error e => .error e
  | .ok token => verify_api_key s token

/-- Endpoint-level admin authentication: the HTTPBearer scheme followed by
`verify_admin_key` on the extracted credentials. -/
def admin_auth (s : Settings) (authHeader : Option String) :
    Except HTTPError String :=
  match httpBearer authHeader with
  | .error e => .error e
  | .ok token => verify_admin_key s token

/-- Message role, the `Literal["system", "user", "assistant"]` of
app/models.py `Message.role`. -/
inductive Role where
  | system
  | user
  | assistant
deriving Repr, DecidableEq

/-- Parse a role string as pydantic validates the literal; anything else is a
validation error. -/
def Role.ofString? : String → Option Role
  | "system" => some .system
  | "user" => some .user
  | "assistant" => some .assistant
  | _ => none

/-- app/models.py `Message`. -/
structure Message where
  role : Role
  content : String
deriving Repr, DecidableEq

/-- app/models.py `ChatCompletionRequest` with its defaults. Floats are
modelled as rationals. -/
structure ChatCompletionRequest where
  model : String := "llama-3-8b"
  messages : List Message
  temperature : Rat := 7/10
  max_tokens : Int := 500
  top_p : Rat := 1
  stream : Bool := false
  stop : Option (List String) := none
deriving Repr, DecidableEq

/-- The pydantic field constraints of app/models.py `ChatCompletionRequest`:
`temperature` has ge=0.0 le=2.0, `max_tokens` has ge=1 le=32000, `top_p` has
ge=0.0 le=1.0. -/
def ChatCompletionRequest.valid (r : ChatCompletionRequest) : Bool :=
  decide (0 ≤ r.temperature) && decide (r.temperature ≤ 2) &&
  decide (1 ≤ r.max_tokens) && decide (r.max_tokens ≤ 32000) &&
  decide (0 ≤ r.top_p) && decide (r.top_p ≤ 1)

/-- FastAPI body validation for POST /v1/chat/completions: a request violating
the pydantic constraints is rejected with 422 before the handler runs. -/
def chat_request_validate (r : ChatCompletionRequest) :
    Except HTTPError ChatCompletionRequest :=
  if r.valid then .ok r else .error (.unprocessable "validation error")

/-- Outcome of one attempted call to the external loader (`llama_cpp.Llama`),
together with the file-existence check performed by `_load_model`:
`success` means the file exists and the engine constructor returns a handle;
`fileNotFound` is the explicit RuntimeError raised when
`settings.model_path` does not exist; `engineError` is any exception raised
by the engine constructor. -/
inductive LoadOutcome where
  | success
  | fileNotFound
  | engineError (msg : String)
deriving Repr, DecidableEq

/-- The mutable state of app/llm.py `LLMManager`: `_llm` is the optional
handle. Handles are modelled by a freshness counter `nextHandle`, so that each
successful load publishes a handle distinct from all earlier ones (in the
source each load constructs a brand-new `Llama` object). The asyncio lock is
not part of the sequential model; the concurrency model below has it. -/
structure LLMManager where
  _llm : Option Nat
  nextHandle : Nat
deriving Repr, DecidableEq

/-- The manager as constructed by `LLMManager.__init__`: no handle. -/
def LLMManager.mk0 : LLMManager := { _llm := none, nextHandle := 0 }

/-- app/llm.py `LLMManager._load_model`: checks that the model file exists and
calls the engine constructor; any failure is re-raised as a RuntimeError whose
message starts with "Failed to load model: ". On success the fresh handle
`fresh` is returned. -/
def _load_model (outcome : LoadOutcome) (fresh : Nat) : Except String Nat :=
  match outcome with
  | .success => .ok fresh
  | .fileNotFound => .error "Failed to load model: Model file not found"
  | .engineError msg => .error ("Failed to load model: " ++ msg)

/-- app/llm.py `LLMManager.get_llm` (sequential behaviour): return the
existing handle if present; otherwise call `_load_model`, publish the handle
on success, and leave `_llm` as None on failure while the RuntimeError
propagates. The pair is (returned value or error, manager state after the
call). -/
def get_llm (m : LLMManager) (outcome : LoadOutcome) :
    Except String Nat × LLMManager :=
  match m._llm with
  | some h => (.ok h, m)
  | none =>
    match _load_model outcome m.nextHandle with
    | .ok h => (.ok h, { _llm := some h, nextHandle := m.nextHandle + 1 })
    | .error e => (.error e, m)

/-- app/llm.py `LLMManager.reload_model`: under the lock, first discard the
existing handle (`del self._llm; self._llm = None`), then call `_load_model`.
On success the new handle is published; on failure the RuntimeError
propagates and the manager keeps no handle (the old one was already
discarded). -/
def reload_model (m : LLMManager) (outcome : LoadOutcome) :
    Except String Unit × LLMManager :=
  match _load_model outcome m.nextHandle with
  | .ok h => (.ok (), { _llm := some h, nextHandle := m.nextHandle + 1 })
  | .error e => (.error e, { m with _llm := none })

/-- app/llm.py `LLMManager.is_loaded`: `self._llm is not None`. -/
def is_loaded (m : LLMManager) : Bool := m._llm.isSome

/-- A sequence of `get_llm` calls, returning the final manager state. -/
def run_get_llm (m : LLMManager) (outs : List LoadOutcome) : LLMManager :=
  outs.foldl (fun s o => (get_llm s o).2) m

/-- app/llm.py `LLMManager.generate_completion`: acquire the handle via
`get_llm` (a load failure propagates unchanged), then call the engine; an
engine exception is re-raised as RuntimeError "Generation failed: ...". The
engine call itself is external and its result is the parameter
`engineResult`; the prompt and sampling parameters are passed through to it
by the source and do not touch manager state. -/
def generate_completion (m : LLMManager) (outcome : LoadOutcome)
    (engineResult : Except String α) : Except String α × LLMManager :=
  match get_llm m outcome with
  | (.ok _, m') =>
    match engineResult with
    | .ok r => (.ok r, m')
    | .error e => (.error ("Generation failed: " ++ e), m')
  | (.error e, m') => (.error e, m')

/-- Token accounting dictionary returned by the engine
(`response["usage"]`). -/
structure EngineUsage where
  prompt_tokens : Nat
  completion_tokens : Nat
  total_tokens : Nat
deriving Repr, DecidableEq

/-- Message dictionary inside an engine chat choice
(`choice_data["message"]`): the role is a raw string here. -/
structure EngineMessage where
  role : String
  content : String
deriving Repr, DecidableEq

/-- One element of `response["choices"]` as returned by the engine;
`finish_reason` may be absent (the route defaults it to "stop"). -/
structure EngineChoice where
  message : EngineMessage
  finish_reason : Option String
deriving Repr, DecidableEq

/-- The engine chat-completion dictionary read by the route:
`response["choices"]` and `response["usage"]`. -/
structure EngineChatResponse where
  choices : List EngineChoice
  usage : EngineUsage
deriving Repr, DecidableEq

/-- app/llm.py `LLMManager.create_chat_completion`: acquire the handle via
`get_llm`, then call the engine chat entry point; an engine exception is
re-raised as RuntimeError "Chat completion failed: ...". -/
def create_chat_completion (m : LLMManager) (outcome : LoadOutcome)
    (engineResult : Except String EngineChatResponse) :
    Except String EngineChatResponse × LLMManager :=
  match get_llm m outcome with
  | (.ok _, m') =>
    match engineResult with
    | .ok r => (.ok r, m')
    | .error e => (.error ("Chat completion failed: " ++ e), m')
  | (.error e, m') => (.error e, m')

/-- app/models.py `Choice.finish_reason`, `Literal["stop", "length", "error"]`. -/
inductive FinishReason where
  | stop
  | length
  | error
deriving Repr, DecidableEq

/-- Pydantic validation of the finish-reason literal when the response
envelope is constructed. -/
def FinishReason.ofString? : String → Option FinishReason
  | "stop" => some .stop
  | "length" => some .length
  | "error" => some .error
  | _ => none

/-- app/models.py `Usage`. -/
structure Usage where
  prompt_tokens : Nat
  completion_tokens : Nat
  total_tokens : Nat
deriving Repr, DecidableEq

/-- app/models.py `Choice`. -/
structure Choice where
  index : Nat
  message : Message
  finish_reason : FinishReason
deriving Repr, DecidableEq

/-- app/models.py `ChatCompletionResponse`. -/
structure ChatCompletionResponse where
  id : String
  object : String := "chat.completion"
  created : Nat
  model : String
  choices : List Choice
  usage : Usage
deriving Repr, DecidableEq

/-- app/routes/chat.py `create_chat_completion` handler body, after
authentication and body validation have both passed. `rid` stands for the
synthesized "chatcmpl-..." identifier and `now` for `int(time.time())`. The
manager call is made with the request parameters; a RuntimeError from it
becomes a 500 with detail "Generation failed: ..."; any other fault while
building the envelope (empty `choices`, or a role/finish_reason string the
pydantic literals reject) becomes a 500 with detail "Unexpected error: ...".
On success the envelope copies the engine content and usage verbatim. -/
def route_create_chat_completion (s : Settings) (m : LLMManager)
    (req : ChatCompletionRequest) (outcome : LoadOutcome)
    (engineResult : Except String EngineChatResponse)
    (rid : String) (now : Nat) :
    Except HTTPError ChatCompletionResponse × LLMManager :=
  match create_chat_completion m outcome engineResult with
  | (.error e, m') => (.error (.internalError ("Generation failed: " ++ e)), m')
  | (.ok resp, m') =>
    match resp.choices.head? with
    | none => (.error (.internalError "Unexpected error: list index out of range"), m')
    | some choice_data =>
      match Role.ofString? choice_data.message.role,
            FinishReason.ofString? (choice_data.finish_reason.getD "stop") with
      | some role, some fr =>
        (.ok { id := rid
               object := "chat.completion"
               created := now
               model := s.model_name
               choices := [{ index := 0
                             message := { role := role
                                          content := choice_data.message.content }
                             finish_reason := fr }]
               usage := { prompt_tokens := resp.usage.prompt_tokens
                          completion_tokens := resp.usage.completion_tokens
                          total_tokens := resp.usage.total_tokens } }, m')
      | _, _ => (.error (.internalError "Unexpected error: validation error"), m')

/-- app/models.py `HealthResponse`. -/
structure HealthResponse where
  status : String := "ok"
  model_loaded : Bool
deriving Repr, DecidableEq

/-- app/routes/health.py `health_check`. -/
def health_check (m : LLMManager) : HealthResponse :=
  { status := "ok", model_loaded := is_loaded m }

/-- The GET /health endpoint: the route declares no authentication dependency,
so the Authorization header (if any) is ignored and the handler always
succeeds with a 200 body. -/
def health_endpoint (m : LLMManager) (authHeader : Option String) :
    Except HTTPError HealthResponse :=
  .ok (health_check m)

/-!
Concurrency model of `get_llm` (app/llm.py lines 29-46). A pool of `n` asyncio
tasks each runs one first-time `get_llm` call against a shared manager. Each
task is a sequence of atomic steps separated by the suspension points of the
source: the unsynchronized fast-path check, acquiring `self._lock`, the
re-check under the lock, the awaited `_load_model` call (the lock is held for
its whole duration), and releasing the lock. Loads succeed in this model (a
load failure releases the lock and lets the next caller retry, which is claim
C4's sequential territory). `loads` counts `_load_model` invocations.
-/

/-- Program counter of one task running `get_llm`. -/
inductive PC where
  | check1
  | acquire
  | recheck
  | loadRun
  | unlock
  | done
deriving Repr, DecidableEq

/-- Shared state: the manager's `_llm` field, the owner of `self._lock` (none
when free), each task's position, and the number of `_load_model`
invocations so far. -/
structure CState (n : Nat) where
  llm : Option Nat
  lockOwner : Option (Fin n)
  pcs : Fin n → PC
  loads : Nat

/-- Move task `i` to position `p`, leaving the other tasks in place. -/
def setPC (pcs : Fin n → PC) (i : Fin n) (p : PC) : Fin n → PC :=
  fun j => if j = i then p else pcs j

/-- One atomic step of task `i`; a task that is blocked on the lock or already
finished leaves the state unchanged. -/
def stepTask (s : CState n) (i : Fin n) : CState n :=
  match s.pcs i with
  | .check1 =>
    match s.llm with
    | some _ => { s with pcs := setPC s.pcs i .done }
    | none => { s with pcs := setPC s.pcs i .acquire }
  | .acquire =>
    match s.lockOwner with
    | some _ => s
    | none => { s with lockOwner := some i, pcs := setPC s.pcs i .recheck }
  | .recheck =>
    match s.llm with
    | some _ => { s with pcs := setPC s.pcs i .unlock }
    | none => { s with loads := s.loads + 1, pcs := setPC s.pcs i .loadRun }
  | .loadRun =>
    { s with llm := some s.loads, pcs := setPC s.pcs i .unlock }
  | .unlock =>
    { s with lockOwner := none, pcs := setPC s.pcs i .done }
  | .done => s

/-- Run the scheduler over a trace: at each instant the named task takes its
next atomic step. Every interleaving of the `n` tasks is some trace. -/
def runTrace (s : CState n) : List (Fin n) → CState n
  | [] => s
  | i :: rest => runTrace (stepTask s i) rest

/-- All tasks about to make a first-time `get_llm` call on the unloaded
manager. -/
def initCState (n : Nat) : CState n :=
  { llm := none, lockOwner := none, pcs := fun _ => .check1, loads := 0 }

/-- The positions a task can occupy only while holding the lock. -/
def Region (p : PC) : Prop := p = .recheck ∨ p = .loadRun ∨ p = .unlock

/-- Inductive invariant of the concurrency model. -/
structure CInv (s : CState n) : Prop where
  mutex : ∀ i, Region (s.pcs i) → s.lockOwner = some i
  llm_some : s.llm.isSome = true → s.loads = 1 ∧ ∀ i, s.pcs i ≠ PC.loadRun
  llm_none_loading : s.llm = none → ∀ i, s.pcs i = PC.loadRun → s.loads = 1
  llm_none_idle : s.llm = none → (∀ i, s.pcs i ≠ PC.loadRun) → s.loads = 0
  finished : ∀ i, s.pcs i = PC.unlock ∨ s.pcs i = PC.done → s.llm.isSome = true

/-- Handle freshness: the manager never stores a handle at or above the
freshness counter, so each load publishes a handle distinct from every handle
published before (in the source: each load constructs a new object). -/
def HandleFresh (m : LLMManager) : Prop :=
  ∀ h, m._llm = some h → h < m.nextHandle

/-!
Theorems. First general lemmas about the embedded operations, then one
theorem (plus witness or counterexample) per specified property.
-/

theorem HandleFresh.mk0 : HandleFresh LLMManager.mk0 := by
  intro h hh
  simp [LLMManager.mk0] at hh

theorem HandleFresh.get_llm {m : LLMManager} (hm : HandleFresh m)
    (outcome : LoadOutcome) : HandleFresh (InferenceServer.get_llm m outcome).2 := by
  intro h hh
  cases hml : m._llm with
  | some h0 =>
    simp only [InferenceServer.get_llm, hml, Option.some.injEq] at hh ⊢
    exact hh ▸ hm h0 hml
  | none =>
    cases outcome with
    | success =>
      simp only [InferenceServer.get_llm, _load_model, hml, Option.some.injEq] at hh ⊢
      omega
    | fileNotFound => simp [InferenceServer.get_llm, _load_model, hml] at hh
    | engineError msg => simp [InferenceServer.get_llm, _load_model, hml] at hh

theorem HandleFresh.reload {m : LLMManager} (hm : HandleFresh m)
    (outcome : LoadOutcome) : HandleFresh (reload_model m outcome).2 := by
  intro h hh
  cases outcome with
  | success =>
    simp only [reload_model, _load_model, Option.some.injEq] at hh ⊢
    omega
  | fileNotFound => simp [reload_model, _load_model] at hh
  | engineError msg => simp [reload_model, _load_model] at hh

theorem get_llm_loaded (m : LLMManager) (hndl : Nat) (hm : m._llm = some hndl)
    (outcome : LoadOutcome) : get_llm m outcome = (.ok hndl, m) := by
  simp [get_llm, hm]

theorem run_get_llm_loaded (m : LLMManager) (hndl : Nat) (hm : m._llm = some hndl)
    (outs : List LoadOutcome) : run_get_llm m outs = m := by
  induction outs with
  | nil => rfl
  | cons o rest ih =>
    show run_get_llm (get_llm m o).2 rest = m
    rw [get_llm_loaded m hndl hm o]
    exact ih

theorem get_llm_ok_state (m : LLMManager) (outcome : LoadOutcome) (hndl : Nat)
    (hok : (get_llm m outcome).1 = .ok hndl) :
    (get_llm m outcome).2._llm = some hndl := by
  cases hml : m._llm with
  | some h =>
    simp only [get_llm, hml, Except.ok.injEq] at hok ⊢
    rw [hok]
  | none =>
    cases outcome with
    | success =>
      simp only [get_llm, _load_model, hml, Except.ok.injEq] at hok ⊢
      rw [hok]
    | fileNotFound => simp [get_llm, _load_model, hml] at hok
    | engineError msg => simp [get_llm, _load_model, hml] at hok

theorem setPC_same (pcs : Fin n → PC) (i : Fin n) (p : PC) :
    setPC pcs i p i = p := by
  simp [setPC]

theorem setPC_other (pcs : Fin n → PC) (i j : Fin n) (p : PC) (hji : j ≠ i) :
    setPC pcs i p j = pcs j := by
  simp [setPC, hji]

theorem CInv.init (n : Nat) : CInv (initCState n) := by
  refine ⟨fun i hri => ?_, fun hs => ?_, fun _ j hj => ?_, fun _ _ => rfl,
    fun j hj => ?_⟩
  · simp [initCState, Region] at hri
  · simp [initCState] at hs
  · simp [initCState] at hj
  · simp [initCState] at hj

theorem CInv.step {n : Nat} {s : CState n} (h : CInv s) (i : Fin n) :
    CInv (stepTask s i) := by
  obtain ⟨hmutex, hsome, hloading, hidle, hfin⟩ := h
  cases hpc : s.pcs i with
  | check1 =>
    cases hl : s.llm with
    | some v =>
      simp only [stepTask, hpc, hl]
      refine ⟨?_, ?_, ?_, ?_, ?_⟩
      · intro j hj
        rcases eq_or_ne j i with hji | hji
        · subst hji
          simp only [setPC_same] at hj
          simp [Region] at hj
        · simp only [setPC_other _ _ _ _ hji] at hj
          exact hmutex j hj
      · intro hs
        refine ⟨(hsome (by simp [hl])).1, ?_⟩
        intro j
        rcases eq_or_ne j i with hji | hji
        · subst hji
          simp [setPC_same]
        · simp only [setPC_other _ _ _ _ hji]
          exact (hsome (by simp [hl])).2 j
      · intro hnone
        simp at hnone
      · intro hnone
        simp at hnone
      · intro j hj
        simp
    | none =>
      simp only [stepTask, hpc, hl]
      refine ⟨?_, ?_, ?_, ?_, ?_⟩
      · intro j hj
        rcases eq_or_ne j i with hji | hji
        · subst hji
          simp only [setPC_same] at hj
          simp [Region] at hj
        · simp only [setPC_other _ _ _ _ hji] at hj
          exact hmutex j hj
      · intro hs
        simp [hl] at hs
      · intro hnone j hj
        rcases eq_or_ne j i with hji | hji
        · subst hji
          simp only [setPC_same] at hj
          exact absurd hj (by simp)
        · simp only [setPC_other _ _ _ _ hji] at hj
          exact hloading hl j hj
      · intro hnone hall
        refine hidle hl fun j => ?_
        rcases eq_or_ne j i with hji | hji
        · subst hji
          rw [hpc]
          simp
        · have := hall j
          simp only [setPC_other _ _ _ _ hji] at this
          exact this
      · intro j hj
        rcases eq_or_ne j i with hji | hji
        · subst hji
          simp only [setPC_same] at hj
          rcases hj with hj | hj <;> exact absurd hj (by simp)
        · simp only [setPC_other _ _ _ _ hji] at hj
          have := hfin j hj
          simp [hl] at this
  | acquire =>
    cases ho : s.lockOwner with
    | some k =>
      simp only [stepTask, hpc, ho]
      exact ⟨hmutex, hsome, hloading, hidle, hfin⟩
    | none =>
      simp only [stepTask, hpc, ho]
      refine ⟨?_, ?_, ?_, ?_, ?_⟩
      · intro j hj
        rcases eq_or_ne j i with hji | hji
        · subst hji
          rfl
        · simp only [setPC_other _ _ _ _ hji] at hj
          have := hmutex j hj
          rw [ho] at this
          exact absurd this (by simp)
      · intro hs
        refine ⟨(hsome hs).1, ?_⟩
        intro j
        rcases eq_or_ne j i with hji | hji
        · subst hji
          simp [setPC_same]
        · simp only [setPC_other _ _ _ _ hji]
          exact (hsome hs).2 j
      · intro hnone j hj
        rcases eq_or_ne j i with hji | hji
        · subst hji
          simp only [setPC_same] at hj
          exact absurd hj (by simp)
        · simp only [setPC_other _ _ _ _ hji] at hj
          exact hloading hnone j hj
      · intro hnone hall
        refine hidle hnone fun j => ?_
        rcases eq_or_ne j i with hji | hji
        · subst hji
          rw [hpc]
          simp
        · have := hall j
          simp only [setPC_other _ _ _ _ hji] at this
          exact this
      · intro j hj
        rcases eq_or_ne j i with hji | hji
        · subst hji
          simp only [setPC_same] at hj
          rcases hj with hj | hj <;> exact absurd hj (by simp)
        · simp only [setPC_other _ _ _ _ hji] at hj
          exact hfin j hj
  | recheck =>
    have howner : s.lockOwner = some i := hmutex i (by simp [Region, hpc])
    cases hl : s.llm with
    | some v =>
      simp only [stepTask, hpc, hl]
      refine ⟨?_, ?_, ?_, ?_, ?_⟩
      · intro j hj
        rcases eq_or_ne j i with hji | hji
        · subst hji
          exact howner
        · simp only [setPC_other _ _ _ _ hji] at hj
          exact hmutex j hj
      · intro hs
        refine ⟨(hsome (by simp [hl])).1, ?_⟩
        intro j
        rcases eq_or_ne j i with hji | hji
        · subst hji
          simp [setPC_same]
        · simp only [setPC_other _ _ _ _ hji]
          exact (hsome (by simp [hl])).2 j
      · intro hnone
        simp at hnone
      · intro hnone
        simp at hnone
      · intro j hj
        simp
    | none =>
      have hnoload : ∀ j, s.pcs j ≠ PC.loadRun := by
        intro j hj
        have h1 := hmutex j (by simp [Region, hj])
        rw [howner] at h1
        have h2 : i = j := Option.some.inj h1
        rw [← h2, hpc] at hj
        exact absurd hj (by simp)
      have hzero : s.loads = 0 := hidle hl hnoload
      simp only [stepTask, hpc, hl]
      refine ⟨?_, ?_, ?_, ?_, ?_⟩
      · intro j hj
        rcases eq_or_ne j i with hji | hji
        · subst hji
          exact howner
        · simp only [setPC_other _ _ _ _ hji] at hj
          exact hmutex j hj
      · intro hs
        simp [hl] at hs
      · intro hnone j hj
        show s.loads + 1 = 1
        omega
      · intro hnone hall
        have := hall i
        simp only [setPC_same] at this
        exact absurd rfl this
      · intro j hj
        rcases eq_or_ne j i with hji | hji
        · subst hji
          simp only [setPC_same] at hj
          rcases hj with hj | hj <;> exact absurd hj (by simp)
        · simp only [setPC_other _ _ _ _ hji] at hj
          have := hfin j hj
          simp [hl] at this
  | loadRun =>
    have howner : s.lockOwner = some i := hmutex i (by simp [Region, hpc])
    have hl : s.llm = none := by
      cases hls : s.llm with
      | none => rfl
      | some v => exact absurd hpc ((hsome (by simp [hls])).2 i)
    have hone : s.loads = 1 := hloading hl i hpc
    simp only [stepTask, hpc]
    refine ⟨?_, ?_, ?_, ?_, ?_⟩
    · intro j hj
      rcases eq_or_ne j i with hji | hji
      · subst hji
        exact howner
      · simp only [setPC_other _ _ _ _ hji] at hj
        exact hmutex j hj
    · intro hs
      refine ⟨hone, ?_⟩
      intro j
      rcases eq_or_ne j i with hji | hji
      · subst hji
        simp [setPC_same]
      · simp only [setPC_other _ _ _ _ hji]
        intro hj
        have h1 := hmutex j (by simp [Region, hj])
        rw [howner] at h1
        exact hji (Option.some.inj h1).symm
    · intro hnone
      simp at hnone
    · intro hnone
      simp at hnone
    · intro j hj
      simp
  | unlock =>
    have hllm : s.llm.isSome = true := hfin i (Or.inl hpc)
    have howner : s.lockOwner = some i := hmutex i (by simp [Region, hpc])
    simp only [stepTask, hpc]
    refine ⟨?_, ?_, ?_, ?_, ?_⟩
    · intro j hj
      rcases eq_or_ne j i with hji | hji
      · subst hji
        simp only [setPC_same] at hj
        simp [Region] at hj
      · simp only [setPC_other _ _ _ _ hji] at hj
        have h1 := hmutex j hj
        rw [howner] at h1
        exact absurd (Option.some.inj h1).symm hji
    · intro hs
      refine ⟨(hsome hllm).1, ?_⟩
      intro j
      rcases eq_or_ne j i with hji | hji
      · subst hji
        simp [setPC_same]
      · simp only [setPC_other _ _ _ _ hji]
        exact (hsome hllm).2 j
    · intro hnone
      have hn2 : s.llm = none := hnone
      rw [hn2] at hllm
      simp at hllm
    · intro hnone
      have hn2 : s.llm = none := hnone
      rw [hn2] at hllm
      simp at hllm
    · intro j hj
      exact hllm
  | done =>
    simp only [stepTask, hpc]
    exact ⟨hmutex, hsome, hloading, hidle, hfin⟩

theorem CInv.run {n : Nat} {s : CState n} (h : CInv s) (t : List (Fin n)) :
    CInv (runTrace s t) := by
  induction t generalizing s with
  | nil => exact h
  | cons i rest ih => exact ih (h.step i)

theorem CInv.loads_le_one {n : Nat} {s : CState n} (h : CInv s) : s.loads ≤ 1 := by
  cases hl : s.llm with
  | some v =>
    have := (h.llm_some (by simp [hl])).1
    omega
  | none =>
    by_cases hld : ∀ j, s.pcs j ≠ PC.loadRun
    · have := h.llm_none_idle hl hld
      omega
    · push_neg at hld
      obtain ⟨j, hj⟩ := hld
      have := h.llm_none_loading hl j hj
      omega

/-- C1: starting from the unloaded state, for every number `n` of concurrent
first-time `get_llm` callers and every interleaving `trace` of their atomic
steps, at most one `_load_model` invocation ever occurs, no two tasks are ever
inside the load simultaneously, and once all `n ≥ 2` callers have returned the
load has been invoked exactly once, not `n` times. -/
theorem get_llm_single_load (n : Nat) (trace : List (Fin n)) :
    (runTrace (initCState n) trace).loads ≤ 1 ∧
    (∀ i j, (runTrace (initCState n) trace).pcs i = PC.loadRun →
      (runTrace (initCState n) trace).pcs j = PC.loadRun → i = j) ∧
    (2 ≤ n → (∀ i, (runTrace (initCState n) trace).pcs i = PC.done) →
      (runTrace (initCState n) trace).loads = 1) := by
  have hinv := (CInv.init n).run trace
  refine ⟨hinv.loads_le_one, ?_, ?_⟩
  · intro i j hi hj
    have h1 := hinv.mutex i (by simp [Region, hi])
    have h2 := hinv.mutex j (by simp [Region, hj])
    rw [h1] at h2
    exact Option.some.inj h2
  · intro hn hdone
    have hfin := hinv.finished ⟨0, by omega⟩ (Or.inr (hdone ⟨0, by omega⟩))
    exact (hinv.llm_some hfin).1

/-- Witness for C1: with two tasks, a contended schedule (task 1 blocks on the
lock while task 0 loads, then re-checks and returns) completes with exactly
one load; and in a prefix of it, while task 0 is inside the load, the mutual
exclusion conclusion applies. -/
theorem get_llm_single_load_witness :
    (runTrace (initCState 2) [0, 1, 0, 1, 0]).pcs 0 = PC.loadRun ∧
    (0 : Fin 2) = 0 ∧
    2 ≤ 2 ∧
    (∀ i : Fin 2,
      (runTrace (initCState 2) [0, 1, 0, 1, 0, 0, 0, 1, 1, 1]).pcs i = PC.done) ∧
    (runTrace (initCState 2) [0, 1, 0, 1, 0, 0, 0, 1, 1, 1]).loads = 1 :=
  ⟨by decide,
   (get_llm_single_load 2 [0, 1, 0, 1, 0]).2.1 0 0 (by decide) (by decide),
   by decide, by decide,
   (get_llm_single_load 2 [0, 1, 0, 1, 0, 0, 0, 1, 1, 1]).2.2 (by decide)
     (by decide)⟩

/-- C2: when the load performed by `reload_model` fails, the manager is left
with no handle (`is_loaded` is false afterwards, the previous handle not
rolled back), and the `_load_model` error propagates to the caller. -/
theorem reload_failure_leaves_unloaded (m : LLMManager) (outcome : LoadOutcome)
    (hFail : outcome ≠ LoadOutcome.success) :
    (reload_model m outcome).2._llm = none ∧
    is_loaded (reload_model m outcome).2 = false ∧
    ∃ e, _load_model outcome m.nextHandle = .error e ∧
      (reload_model m outcome).1 = .error e := by
  cases outcome with
  | success => exact absurd rfl hFail
  | fileNotFound => exact ⟨rfl, rfl, _, rfl, rfl⟩
  | engineError msg => exact ⟨rfl, rfl, _, rfl, rfl⟩

/-- Witness for C2: a manager holding handle 5 reloads against a missing model
file and ends with no handle while the error propagates. -/
theorem reload_failure_leaves_unloaded_witness :
    LoadOutcome.fileNotFound ≠ LoadOutcome.success ∧
    ((reload_model { _llm := some 5, nextHandle := 6 } .fileNotFound).2._llm = none ∧
     is_loaded (reload_model { _llm := some 5, nextHandle := 6 } .fileNotFound).2 = false ∧
     ∃ e, _load_model .fileNotFound (6 : Nat) = .error e ∧
       (reload_model { _llm := some 5, nextHandle := 6 } .fileNotFound).1 = .error e) :=
  ⟨by decide,
   reload_failure_leaves_unloaded { _llm := some 5, nextHandle := 6 } .fileNotFound
     (by decide)⟩

/-- C3: after a successful `reload_model`, any later `get_llm` (after any
further sequence of `get_llm` calls) returns the newly loaded handle, which is
distinct from the pre-reload handle. `HandleFresh` is the freshness invariant
established at construction and preserved by every operation. -/
theorem reload_supplies_new_handle (m : LLMManager) (hInv : HandleFresh m)
    (h0 : Nat) (hOld : m._llm = some h0) (outcome : LoadOutcome)
    (m' : LLMManager) (hRe : reload_model m outcome = (.ok (), m'))
    (outs : List LoadOutcome) (out2 : LoadOutcome) :
    (get_llm (run_get_llm m' outs) out2).1 = .ok m.nextHandle ∧
    m.nextHandle ≠ h0 := by
  have hlt : h0 < m.nextHandle := hInv h0 hOld
  cases outcome with
  | success =>
    have hm' : m' = { _llm := some m.nextHandle, nextHandle := m.nextHandle + 1 } := by
      have h2 := congrArg Prod.snd hRe
      simp only [reload_model, _load_model] at h2
      exact h2.symm
    constructor
    · rw [hm', run_get_llm_loaded _ m.nextHandle rfl outs,
        get_llm_loaded _ m.nextHandle rfl out2]
    · omega
  | fileNotFound =>
    exfalso
    simp [reload_model, _load_model] at hRe
  | engineError msg =>
    exfalso
    simp [reload_model, _load_model] at hRe

/-- Witness for C3: a freshly built manager loads handle 0, reloads
successfully to handle 1, and afterwards `get_llm` always returns handle 1,
never handle 0. -/
theorem reload_supplies_new_handle_witness :
    HandleFresh { _llm := some 0, nextHandle := 1 } ∧
    ({ _llm := some 0, nextHandle := 1 } : LLMManager)._llm = some 0 ∧
    reload_model { _llm := some 0, nextHandle := 1 } .success =
      (.ok (), { _llm := some 1, nextHandle := 2 }) ∧
    (get_llm (run_get_llm { _llm := some 1, nextHandle := 2 }
        [.fileNotFound, .success]) .success).1 = .ok 1 ∧
    (1 : Nat) ≠ 0 :=
  ⟨fun h hh => by simp_all, rfl, rfl,
   (reload_supplies_new_handle { _llm := some 0, nextHandle := 1 }
      (fun h hh => by simp_all) 0 rfl .success
      { _llm := some 1, nextHandle := 2 } rfl [.fileNotFound, .success] .success).1,
   (reload_supplies_new_handle { _llm := some 0, nextHandle := 1 }
      (fun h hh => by simp_all) 0 rfl .success
      { _llm := some 1, nextHandle := 2 } rfl [.fileNotFound, .success] .success).2⟩

/-- C4: a failed load from the unloaded state propagates the RuntimeError of
`_load_model` to the caller, leaves the manager unchanged with no handle, and
a later `get_llm` call attempts the load again (and succeeds if the load now
succeeds, returning the fresh handle). -/
theorem get_llm_failure_leaves_absent (m : LLMManager) (outcome : LoadOutcome)
    (hNone : m._llm = none) (hFail : outcome ≠ LoadOutcome.success) :
    (∃ e, (get_llm m outcome).1 = .error e ∧
      _load_model outcome m.nextHandle = .error e) ∧
    (get_llm m outcome).2 = m ∧
    (get_llm (get_llm m outcome).2 LoadOutcome.success).1 = .ok m.nextHandle := by
  cases outcome with
  | success => exact absurd rfl hFail
  | fileNotFound =>
    refine ⟨⟨_, ?_, rfl⟩, ?_, ?_⟩ <;>
      simp [get_llm, _load_model, hNone]
  | engineError msg =>
    refine ⟨⟨_, ?_, rfl⟩, ?_, ?_⟩ <;>
      simp [get_llm, _load_model, hNone]

/-- Witness for C4: a fresh manager fails its first load on a missing file,
stays absent, and the retry succeeds with handle 0. -/
theorem get_llm_failure_leaves_absent_witness :
    LLMManager.mk0._llm = none ∧
    LoadOutcome.fileNotFound ≠ LoadOutcome.success ∧
    ((∃ e, (get_llm LLMManager.mk0 .fileNotFound).1 = .error e ∧
        _load_model .fileNotFound LLMManager.mk0.nextHandle = .error e) ∧
     (get_llm LLMManager.mk0 .fileNotFound).2 = LLMManager.mk0 ∧
     (get_llm (get_llm LLMManager.mk0 .fileNotFound).2 LoadOutcome.success).1 =
       .ok LLMManager.mk0.nextHandle) :=
  ⟨rfl, by decide,
   get_llm_failure_leaves_absent LLMManager.mk0 .fileNotFound rfl (by decide)⟩

theorem mem_parse_api_keys_ne_empty {env K : String}
    (hK : K ∈ parse_api_keys env) : K ≠ "" := by
  have := List.of_mem_filter hK
  simpa using this

theorem httpBearer_bearer (K : String) (hK : K ≠ "") :
    httpBearer (some ("Bearer " ++ K)) = .ok K := by
  obtain ⟨kd⟩ := K
  cases kd with
  | nil => exact absurd rfl hK
  | cons c cs => rfl

theorem httpBearer_ok_nonempty (hdr : Option String) (tok : String)
    (hok : httpBearer hdr = .ok tok) : tok ≠ "" := by
  cases hdr with
  | none => simp [httpBearer] at hok
  | some a =>
    simp only [httpBearer] at hok
    by_cases h1 : a = "" ∨ (get_authorization_scheme_param a).1 = "" ∨
        (get_authorization_scheme_param a).2 = ""
    · rw [if_pos h1] at hok
      exact absurd hok (by simp)
    · rw [if_neg h1] at hok
      by_cases h2 : pyLower (get_authorization_scheme_param a).1 ≠ "bearer"
      · rw [if_pos h2] at hok
        exact absurd hok (by simp)
      · rw [if_neg h2] at hok
        push_neg at h1
        exact (Except.ok.inj hok) ▸ h1.2.2

/-- C5 counterexample: at the concrete configuration with user key "k1" and
admin key "adm", a request with no Authorization header (and likewise one with
empty bearer credentials) is rejected by the HTTPBearer security scheme with
403 "Not authenticated" before verify_api_key / verify_admin_key run, on the
user endpoint as well as the admin endpoint: the claimed 401 unauthorized
outcome for an empty or missing key does not occur. -/
theorem endpoint_auth_missing_counterexample :
    user_auth { api_keys := ["k1"], admin_api_key := "adm" } none =
      .error (.forbidden "Not authenticated") ∧
    user_auth { api_keys := ["k1"], admin_api_key := "adm" } (some "Bearer ") =
      .error (.forbidden "Not authenticated") ∧
    user_auth { api_keys := ["k1"], admin_api_key := "adm" } none ≠
      .error (.unauthorized "Missing API key") ∧
    admin_auth { api_keys := ["k1"], admin_api_key := "adm" } none =
      .error (.forbidden "Not authenticated") ∧
    admin_auth { api_keys := ["k1"], admin_api_key := "adm" } none ≠
      .error (.unauthorized "Missing API key") :=
  ⟨rfl, rfl, fun h => by simp [user_auth, httpBearer] at h, rfl,
   fun h => by simp [admin_auth, httpBearer] at h⟩

/-- C5 (amended): at the endpoint level, every configured user key K passes as
`Bearer K`; a missing Authorization header or empty bearer credentials are
rejected 403 "Not authenticated" by the HTTPBearer security scheme before the
verification functions run (not 401), on user and admin endpoints alike; a
non-empty key outside the configured set fails 401 unauthorized; a non-empty
key other than the admin key (a valid user key included) fails the admin
endpoint 403 forbidden; the configured (hence non-empty) admin key passes; and
the credentials handed to the verification functions are never empty, so their
401 "Missing API key" branches are unreachable through the endpoints. -/
theorem endpoint_auth_outcomes (env adminKey K t u : String) :
    (K ∈ parse_api_keys env →
      user_auth { api_keys := parse_api_keys env, admin_api_key := adminKey }
        (some ("Bearer " ++ K)) = .ok K) ∧
    (user_auth { api_keys := parse_api_keys env, admin_api_key := adminKey } none =
      .error (.forbidden "Not authenticated")) ∧
    (user_auth { api_keys := parse_api_keys env, admin_api_key := adminKey }
      (some "Bearer ") = .error (.forbidden "Not authenticated")) ∧
    (t ∉ parse_api_keys env → t ≠ "" →
      user_auth { api_keys := parse_api_keys env, admin_api_key := adminKey }
        (some ("Bearer " ++ t)) = .error (.unauthorized "Invalid API key")) ∧
    (admin_auth { api_keys := parse_api_keys env, admin_api_key := adminKey } none =
      .error (.forbidden "Not authenticated")) ∧
    (admin_auth { api_keys := parse_api_keys env, admin_api_key := adminKey }
      (some "Bearer ") = .error (.forbidden "Not authenticated")) ∧
    (u ≠ "" → u ≠ adminKey →
      admin_auth { api_keys := parse_api_keys env, admin_api_key := adminKey }
        (some ("Bearer " ++ u)) = .error (.forbidden "Admin access required")) ∧
    (K ∈ parse_api_keys env → K ≠ adminKey →
      admin_auth { api_keys := parse_api_keys env, admin_api_key := adminKey }
        (some ("Bearer " ++ K)) = .error (.forbidden "Admin access required")) ∧
    (adminKey ≠ "" →
      admin_auth { api_keys := parse_api_keys env, admin_api_key := adminKey }
        (some ("Bearer " ++ adminKey)) = .ok adminKey) ∧
    (∀ hdr tok, httpBearer hdr = .ok tok → tok ≠ "") := by
  refine ⟨?_, rfl, rfl, ?_, rfl, rfl, ?_, ?_, ?_, httpBearer_ok_nonempty⟩
  · intro hK
    have hKe := mem_parse_api_keys_ne_empty hK
    simp only [user_auth, httpBearer_bearer K hKe]
    simp [verify_api_key, hKe, hK]
  · intro ht hte
    simp only [user_auth, httpBearer_bearer t hte]
    simp [verify_api_key, hte, ht]
  · intro hu hua
    simp only [admin_auth, httpBearer_bearer u hu]
    simp [verify_admin_key, hu, hua]
  · intro hK hKa
    have hKe := mem_parse_api_keys_ne_empty hK
    simp only [admin_auth, httpBearer_bearer K hKe]
    simp [verify_admin_key, hKe, hKa]
  · intro ha
    simp only [admin_auth, httpBearer_bearer adminKey ha]
    simp [verify_admin_key, ha]

/-- Witness for C5 at the concrete configuration with keys parsed from
"k1, k2" and admin key "adm": "Bearer k1" passes the user endpoint,
"Bearer zzz" fails it 401, "Bearer k1" fails the admin endpoint 403,
"Bearer adm" passes the admin endpoint, and the credential "k1" extracted by
the scheme is non-empty. -/
theorem endpoint_auth_outcomes_witness :
    ("k1" ∈ parse_api_keys "k1, k2" ∧
      user_auth { api_keys := parse_api_keys "k1, k2", admin_api_key := "adm" }
        (some ("Bearer " ++ "k1")) = .ok "k1") ∧
    ("zzz" ∉ parse_api_keys "k1, k2" ∧ "zzz" ≠ "" ∧
      user_auth { api_keys := parse_api_keys "k1, k2", admin_api_key := "adm" }
        (some ("Bearer " ++ "zzz")) = .error (.unauthorized "Invalid API key")) ∧
    ("k1" ≠ "" ∧ "k1" ≠ "adm" ∧
      admin_auth { api_keys := parse_api_keys "k1, k2", admin_api_key := "adm" }
        (some ("Bearer " ++ "k1")) = .error (.forbidden "Admin access required")) ∧
    ("adm" ≠ "" ∧
      admin_auth { api_keys := parse_api_keys "k1, k2", admin_api_key := "adm" }
        (some ("Bearer " ++ "adm")) = .ok "adm") ∧
    (httpBearer (some ("Bearer " ++ "k1")) = .ok "k1" ∧ "k1" ≠ "") :=
  ⟨⟨by decide,
    (endpoint_auth_outcomes "k1, k2" "adm" "k1" "zzz" "k1").1 (by decide)⟩,
   ⟨by decide, by decide,
    (endpoint_auth_outcomes "k1, k2" "adm" "k1" "zzz" "zzz").2.2.2.1 (by decide)
      (by decide)⟩,
   ⟨by decide, by decide,
    (endpoint_auth_outcomes "k1, k2" "adm" "k1" "zzz" "k1").2.2.2.2.2.2.1
      (by decide) (by decide)⟩,
   ⟨by decide,
    (endpoint_auth_outcomes "k1, k2" "adm" "k1" "zzz" "k1").2.2.2.2.2.2.2.2.1
      (by decide)⟩,
   ⟨httpBearer_bearer "k1" (by decide),
    (endpoint_auth_outcomes "k1, k2" "adm" "k1" "zzz" "k1").2.2.2.2.2.2.2.2.2
      (some ("Bearer " ++ "k1")) "k1" (httpBearer_bearer "k1" (by decide))⟩⟩

/-- C6: a chat-completion request passes body validation exactly when
temperature lies in [0, 2], max_tokens in [1, 32000] and top_p in [0, 1]; any
violation is a 422 rejection; and the boundary cases behave as specified:
max_tokens = 0 rejected, max_tokens = 1 accepted, temperature = 2.0 accepted,
temperature = 2.01 rejected. -/
theorem chat_request_validation (r : ChatCompletionRequest) :
    ((chat_request_validate r).isOk = true ↔
      (0 ≤ r.temperature ∧ r.temperature ≤ 2 ∧ 1 ≤ r.max_tokens ∧
        r.max_tokens ≤ 32000 ∧ 0 ≤ r.top_p ∧ r.top_p ≤ 1)) ∧
    ((chat_request_validate r).isOk = false →
      chat_request_validate r = .error (.unprocessable "validation error")) ∧
    (chat_request_validate
      { messages := [{ role := .user, content := "Hello" }],
        max_tokens := 0 }).isOk = false ∧
    (chat_request_validate
      { messages := [{ role := .user, content := "Hello" }],
        max_tokens := 1 }).isOk = true ∧
    (chat_request_validate
      { messages := [{ role := .user, content := "Hello" }],
        temperature := 2 }).isOk = true ∧
    (chat_request_validate
      { messages := [{ role := .user, content := "Hello" }],
        temperature := 201/100 }).isOk = false := by
  have hval : r.valid = true ↔
      (0 ≤ r.temperature ∧ r.temperature ≤ 2 ∧ 1 ≤ r.max_tokens ∧
        r.max_tokens ≤ 32000 ∧ 0 ≤ r.top_p ∧ r.top_p ≤ 1) := by
    simp [ChatCompletionRequest.valid, Bool.and_eq_true, decide_eq_true_eq,
      and_assoc]
  refine ⟨?_, ?_,
    by norm_num [chat_request_validate, ChatCompletionRequest.valid,
      Except.isOk, Except.toBool],
    by norm_num [chat_request_validate, ChatCompletionRequest.valid,
      Except.isOk, Except.toBool],
    by norm_num [chat_request_validate, ChatCompletionRequest.valid,
      Except.isOk, Except.toBool],
    by norm_num [chat_request_validate, ChatCompletionRequest.valid,
      Except.isOk, Except.toBool]⟩
  · rw [← hval]
    by_cases hv : r.valid <;>
      simp [chat_request_validate, hv, Except.isOk, Except.toBool]
  · intro hfalse
    by_cases hv : r.valid <;>
      simp [chat_request_validate, hv, Except.isOk, Except.toBool] at hfalse ⊢

/-- Witness for C6: a request with max_tokens = 0 fails validation and is
rejected with a 422 error. -/
theorem chat_request_validation_witness :
    (chat_request_validate
      { messages := [{ role := .user, content := "Hello" }],
        max_tokens := 0 }).isOk = false ∧
    chat_request_validate
      { messages := [{ role := .user, content := "Hello" }],
        max_tokens := 0 } = .error (.unprocessable "validation error") :=
  ⟨by norm_num [chat_request_validate, ChatCompletionRequest.valid,
      Except.isOk, Except.toBool],
   (chat_request_validation
      { messages := [{ role := .user, content := "Hello" }],
        max_tokens := 0 }).2.1
     (by norm_num [chat_request_validate, ChatCompletionRequest.valid,
        Except.isOk, Except.toBool])⟩

/-- C7: when the engine returns a fixed completion with one choice whose role
and finish reason are valid literals, and the handle is available, the route
handler returns an envelope whose single choice carries exactly the engine
content and whose usage fields are copied verbatim from the engine accounting;
in particular total = prompt + completion transfers from the engine accounting
to the response. -/
theorem chat_completion_roundtrip (s : Settings) (m : LLMManager)
    (req : ChatCompletionRequest) (outcome : LoadOutcome)
    (r : EngineChatResponse) (c : EngineChoice) (rid : String) (now : Nat)
    (role : Role) (fr : FinishReason)
    (hAcq : (get_llm m outcome).1.isOk = true)
    (hc : r.choices = [c])
    (hrole : Role.ofString? c.message.role = some role)
    (hfr : FinishReason.ofString? (c.finish_reason.getD "stop") = some fr) :
    (route_create_chat_completion s m req outcome (.ok r) rid now).1 =
      .ok { id := rid
            object := "chat.completion"
            created := now
            model := s.model_name
            choices := [{ index := 0
                          message := { role := role
                                       content := c.message.content }
                          finish_reason := fr }]
            usage := { prompt_tokens := r.usage.prompt_tokens
                       completion_tokens := r.usage.completion_tokens
                       total_tokens := r.usage.total_tokens } } ∧
    (r.usage.total_tokens = r.usage.prompt_tokens + r.usage.completion_tokens →
      ∀ resp, (route_create_chat_completion s m req outcome (.ok r) rid now).1 =
          .ok resp →
        resp.usage.total_tokens =
          resp.usage.prompt_tokens + resp.usage.completion_tokens) := by
  obtain ⟨hndl, hget⟩ : ∃ hndl, (get_llm m outcome).1 = .ok hndl := by
    cases hg : (get_llm m outcome).1 with
    | ok v => exact ⟨v, rfl⟩
    | error e => rw [hg] at hAcq; simp [Except.isOk, Except.toBool] at hAcq
  have hcc : create_chat_completion m outcome (.ok r) =
      (.ok r, (get_llm m outcome).2) := by
    unfold create_chat_completion
    rcases hG : get_llm m outcome with ⟨res, m2⟩
    rw [hG] at hget
    simp only at hget
    rw [hget]
  have hmain : (route_create_chat_completion s m req outcome (.ok r) rid now).1 =
      .ok { id := rid
            object := "chat.completion"
            created := now
            model := s.model_name
            choices := [{ index := 0
                          message := { role := role
                                       content := c.message.content }
                          finish_reason := fr }]
            usage := { prompt_tokens := r.usage.prompt_tokens
                       completion_tokens := r.usage.completion_tokens
                       total_tokens := r.usage.total_tokens } } := by
    simp only [route_create_chat_completion, hcc, hc, List.head?, hrole, hfr]
  refine ⟨hmain, ?_⟩
  intro hsum resp hresp
  rw [hmain] at hresp
  have hre : resp = { id := rid
                      object := "chat.completion"
                      created := now
                      model := s.model_name
                      choices := [{ index := 0
                                    message := { role := role
                                                 content := c.message.content }
                                    finish_reason := fr }]
                      usage := { prompt_tokens := r.usage.prompt_tokens
                                 completion_tokens := r.usage.completion_tokens
                                 total_tokens := r.usage.total_tokens } } :=
    (Except.ok.inj hresp).symm
  rw [hre]
  exact hsum

/-- Witness for C7: a loaded manager and a stub engine response with content
"Hi there" and usage (5, 7, 12) produce an envelope carrying exactly that
content and that accounting. -/
theorem chat_completion_roundtrip_witness :
    ((get_llm { _llm := some 0, nextHandle := 1 } .success).1.isOk = true) ∧
    (route_create_chat_completion
        { api_keys := ["k1"], admin_api_key := "adm", model_name := "test-model" }
        { _llm := some 0, nextHandle := 1 }
        { messages := [{ role := .user, content := "Hello" }],
          temperature := 7/10, max_tokens := 100 }
        .success
        (.ok { choices := [{ message := { role := "assistant", content := "Hi there" },
                             finish_reason := some "stop" }],
               usage := { prompt_tokens := 5, completion_tokens := 7,
                          total_tokens := 12 } })
        "chatcmpl-abc123" 1700000000).1 =
      .ok { id := "chatcmpl-abc123"
            object := "chat.completion"
            created := 1700000000
            model := "test-model"
            choices := [{ index := 0
                          message := { role := .assistant, content := "Hi there" }
                          finish_reason := .stop }]
            usage := { prompt_tokens := 5, completion_tokens := 7,
                       total_tokens := 12 } } :=
  ⟨by decide,
   (chat_completion_roundtrip
      { api_keys := ["k1"], admin_api_key := "adm", model_name := "test-model" }
      { _llm := some 0, nextHandle := 1 }
      { messages := [{ role := .user, content := "Hello" }],
        temperature := 7/10, max_tokens := 100 }
      .success
      { choices := [{ message := { role := "assistant", content := "Hi there" },
                      finish_reason := some "stop" }],
        usage := { prompt_tokens := 5, completion_tokens := 7, total_tokens := 12 } }
      { message := { role := "assistant", content := "Hi there" },
        finish_reason := some "stop" }
      "chatcmpl-abc123" 1700000000 .assistant .stop
      (by decide) rfl rfl rfl).1⟩

/-- C8: GET /health ignores any Authorization header, always succeeds with a
200 body reporting status "ok" and the current `is_loaded` value, and on an
unloaded manager reports model_loaded = false instead of erroring. -/
theorem health_always_ok (m : LLMManager) (authHeader : Option String) (k : Nat) :
    health_endpoint m authHeader = .ok { status := "ok", model_loaded := is_loaded m } ∧
    (health_endpoint m authHeader).isOk = true ∧
    health_endpoint { _llm := none, nextHandle := k } authHeader =
      .ok { status := "ok", model_loaded := false } :=
  ⟨rfl, rfl, rfl⟩

/-- C9 counterexample: with an empty API-key list and no admin key, process
start does not fail: module import catches the ValueError and continues with a
warning, so `config_startup` returns successfully. -/
theorem startup_failfast_counterexample :
    config_startup { api_keys := [], admin_api_key := "" } =
      .ok ({ api_keys := [], admin_api_key := "" },
        some ("Configuration validation failed: " ++
          "At least one API key must be configured. Set API_KEYS environment variable.")) ∧
    (config_startup { api_keys := [], admin_api_key := "" }).isOk = true := by
  exact ⟨rfl, rfl⟩

/-- C9 amended: `validate_required_fields` raises a hard error when the key
set is empty or the admin key is missing, but the module-level startup code
catches that error and continues with a warning instead of failing fast. -/
theorem startup_warns_and_continues (s : Settings) :
    ((s.api_keys = [] ∨ s.admin_api_key = "") →
      ∃ e, validate_required_fields s = .error e) ∧
    (config_startup s).isOk = true ∧
    (∀ e, validate_required_fields s = .error e →
      config_startup s = .ok (s, some ("Configuration validation failed: " ++ e))) ∧
    (validate_required_fields s = .ok () → config_startup s = .ok (s, none)) := by
  refine ⟨?_, ?_, ?_, ?_⟩
  · intro hbad
    unfold validate_required_fields
    rcases hbad with hkeys | hadmin
    · rw [if_pos hkeys]
      exact ⟨_, rfl⟩
    · by_cases hkeys : s.api_keys = []
      · rw [if_pos hkeys]
        exact ⟨_, rfl⟩
      · rw [if_neg hkeys, if_pos hadmin]
        exact ⟨_, rfl⟩
  · cases hv : validate_required_fields s with
    | ok u => simp [config_startup, hv, Except.isOk, Except.toBool]
    | error e => simp [config_startup, hv, Except.isOk, Except.toBool]
  · intro e he
    simp [config_startup, he]
  · intro hok
    simp [config_startup, hok]

/-- Witness for C9 amended: at the unconfigured settings the validator errors
and startup still succeeds with the corresponding warning. -/
theorem startup_warns_and_continues_witness :
    ((({ api_keys := [], admin_api_key := "" } : Settings).api_keys = [] ∨
       ({ api_keys := [], admin_api_key := "" } : Settings).admin_api_key = "") ∧
     ∃ e, validate_required_fields { api_keys := [], admin_api_key := "" } =
       .error e) ∧
    (config_startup { api_keys := [], admin_api_key := "" }).isOk = true ∧
    config_startup { api_keys := [], admin_api_key := "" } =
      .ok ({ api_keys := [], admin_api_key := "" },
        some ("Configuration validation failed: " ++
          "At least one API key must be configured. Set API_KEYS environment variable.")) :=
  ⟨⟨Or.inl rfl,
    (startup_warns_and_continues { api_keys := [], admin_api_key := "" }).1
      (Or.inl rfl)⟩,
   (startup_warns_and_continues { api_keys := [], admin_api_key := "" }).2.1,
   (startup_warns_and_continues { api_keys := [], admin_api_key := "" }).2.2.1 _
     rfl⟩

/-- C10: once the handle is acquired, neither a `generate_completion` call nor
a `create_chat_completion` call changes the stored handle, whether the engine
call succeeds or raises: afterwards `_llm` still holds the acquired handle and
`is_loaded` is still true. -/
theorem generation_preserves_handle (m : LLMManager) (outcome : LoadOutcome)
    (hndl : Nat) (hAcq : (get_llm m outcome).1 = .ok hndl)
    (eng : Except String String) (engC : Except String EngineChatResponse) :
    (generate_completion m outcome eng).2._llm = some hndl ∧
    is_loaded (generate_completion m outcome eng).2 = true ∧
    (create_chat_completion m outcome engC).2._llm = some hndl ∧
    is_loaded (create_chat_completion m outcome engC).2 = true := by
  have hstate := get_llm_ok_state m outcome hndl hAcq
  have hgen : (generate_completion m outcome eng).2 = (get_llm m outcome).2 := by
    unfold generate_completion
    rcases hG : get_llm m outcome with ⟨res, m2⟩
    rw [hG] at hAcq
    simp only at hAcq
    rw [hAcq]
    cases eng <;> rfl
  have hchat : (create_chat_completion m outcome engC).2 = (get_llm m outcome).2 := by
    unfold create_chat_completion
    rcases hG : get_llm m outcome with ⟨res, m2⟩
    rw [hG] at hAcq
    simp only at hAcq
    rw [hAcq]
    cases engC <;> rfl
  refine ⟨?_, ?_, ?_, ?_⟩
  · rw [hgen]; exact hstate
  · rw [is_loaded, hgen, hstate]; rfl
  · rw [hchat]; exact hstate
  · rw [is_loaded, hchat, hstate]; rfl

/-- Witness for C10: a loaded manager holding handle 3 keeps handle 3 and
stays loaded through a failing `generate_completion` and a failing
`create_chat_completion`. -/
theorem generation_preserves_handle_witness :
    ((get_llm { _llm := some 3, nextHandle := 4 } .success).1 = .ok 3) ∧
    ((generate_completion { _llm := some 3, nextHandle := 4 } .success
        (.error "boom" : Except String String)).2._llm = some 3 ∧
     is_loaded (generate_completion { _llm := some 3, nextHandle := 4 } .success
        (.error "boom" : Except String String)).2 = true ∧
     (create_chat_completion { _llm := some 3, nextHandle := 4 } .success
        (.error "boom")).2._llm = some 3 ∧
     is_loaded (create_chat_completion { _llm := some 3, nextHandle := 4 } .success
        (.error "boom")).2 = true) :=
  ⟨rfl,
   generation_preserves_handle { _llm := some 3, nextHandle := 4 } .success 3 rfl
     (.error "boom") (.error "boom")⟩

end InferenceServer
